import Mathlib

/-!
Shallow embedding of the device-state and protocol-dispatch layer of
libsddc (src/libsddc.c), together with theorems settling the claims about
its specification.

Modelling conventions:
* C doubles are modelled as rationals; the C cast (int)/(uint32_t) of a
  double truncates toward zero, modelled by ratTrunc below, with the
  final reduction modulo 2^w for a w-bit destination.
* The USB transport and the streaming engine are external collaborators;
  every call into them is modelled as an HWAction together with an
  oracle (HWAction -> Bool) deciding whether that call succeeds.  Each
  embedded operation returns its C int return value (0 or -1), the new
  device state when the C function mutates it, and the list of hardware
  actions actually issued, in order.
* The enums SDDCStatus, RFMode and SDDCHWModel are declared in the
  header libsddc.h, which is not part of the sources; their constructors
  are modelled from the spec (status Ready/Streaming, rf mode HF/VHF,
  models with a catch-all unrecognized variant).  Only the constructors
  named by the switch in sddc_open matter to the code.
-/

namespace Libsddc

/-- Modelled from the spec: device lifecycle status, Ready or Streaming
(enum SDDCStatus of the missing header libsddc.h). -/
inductive SDDCStatus where
  | ready
  | streaming
deriving DecidableEq, Repr

/-- Modelled from the spec: RF mode, HF or VHF (enum RFMode of the
missing header libsddc.h). -/
inductive RFMode where
  | hf
  | vhf
deriving DecidableEq, Repr

/-- Modelled from the spec: hardware models (enum SDDCHWModel of the
missing header libsddc.h).  The switch in sddc_open names HW_BBRF103,
HW_RX888 and HW_HF103; every other value falls to the default case,
modelled by the catch-all constructor carrying the raw model byte. -/
inductive SDDCHWModel where
  | hwBBRF103
  | hwHF103
  | hwRX888
  | hwUnknown (code : ℕ)
deriving DecidableEq, Repr

/-- Vendor control-transfer opcodes used by libsddc.c (declared in the
missing header usb_device.h command list). -/
inductive USBCmd where
  | TESTFX3
  | RESETFX3
  | STARTFX3
  | STOPFX3
  | R820T2STDBY
  | R820T2TUNE
  | R820T2SETATT
  | R820T2GETATT
  | SI5351A
  | DAT31FX3
deriving DecidableEq, Repr

/-- One call into an external collaborator (USB transport or streaming
engine).  Control payloads are abstracted as the list of numeric words
written (a single byte, or the two 32-bit frequency words of SI5351A). -/
inductive HWAction where
  | control (cmd : USBCmd) (payload : List ℕ)
  | gpioSet (pattern : ℕ) (mask : ℕ)
  | gpioOn (bits : ℕ)
  | gpioOff (bits : ℕ)
  | streamingOpenAsync
  | streamingSetSampleRate (rate : ℕ)
  | streamingStart
  | streamingStop
deriving DecidableEq, Repr

/-- Success oracle for the external collaborators: decides whether a
given hardware call reports success. -/
def Oracle : Type := HWAction → Bool

/-- The sddc struct of libsddc.c.  The int capability flags
has_clock_source and has_vhf_tuner only ever hold 0 or 1 and are
modelled as Bool; the streaming engine pointer is modelled by the flag
hasStreaming (non-NULL or NULL). -/
structure SDDC where
  status : SDDCStatus
  model : SDDCHWModel
  firmware : ℕ
  rf_mode : RFMode
  hasStreaming : Bool
  has_clock_source : Bool
  has_vhf_tuner : Bool
  hf_attenuator_levels : ℕ
  sample_rate : ℚ
  tuner_frequency : ℚ
  freq_corr_ppm : ℚ
deriving DecidableEq, Repr

/-- C cast of a double to an integer type: truncation toward zero. -/
def ratTrunc (x : ℚ) : ℤ :=
  if 0 ≤ x then ⌊x⌋ else -⌊-x⌋

/-- GPIO bit ATT_SEL0 (enum GPIOBits, libsddc.c). -/
def GPIO_ATT_SEL0 : ℕ := 0x2000

/-- GPIO bit ATT_SEL1 (enum GPIOBits, libsddc.c). -/
def GPIO_ATT_SEL1 : ℕ := 0x4000

/-- usb_device_control: issues one vendor control transfer; the oracle
decides success (C return value 0) or failure (-1). -/
def usb_device_control (oracle : Oracle) (cmd : USBCmd) (payload : List ℕ) :
    Int × List HWAction :=
  let a := HWAction.control cmd payload
  (if oracle a then 0 else -1, [a])

/-- usb_device_gpio_set: masked GPIO register write. -/
def usb_device_gpio_set (oracle : Oracle) (pattern : ℕ) (mask : ℕ) :
    Int × List HWAction :=
  let a := HWAction.gpioSet pattern mask
  (if oracle a then 0 else -1, [a])

/-- streaming_set_sample_rate: void in C, never fails; just the action. -/
def streaming_set_sample_rate (rate : ℕ) : List HWAction :=
  [HWAction.streamingSetSampleRate rate]

/-- streaming_start of the external streaming engine. -/
def streaming_start (oracle : Oracle) : Int × List HWAction :=
  (if oracle HWAction.streamingStart then 0 else -1, [HWAction.streamingStart])

/-- streaming_stop of the external streaming engine. -/
def streaming_stop (oracle : Oracle) : Int × List HWAction :=
  (if oracle HWAction.streamingStop then 0 else -1, [HWAction.streamingStop])

/-- The corrected raw frequency word computed by sddc_set_clock_source:
correction = 1e-6 * freq_corr_ppm * f, then the C cast
(uint32_t)(f + correction), i.e. truncation toward zero reduced to 32
bits. -/
def corrected_frequency_word (ppm f : ℚ) : ℕ :=
  let correction : ℚ := 1 / 1000000 * ppm * f
  (ratTrunc (f + correction)).toNat % 2 ^ 32

/-- sddc_set_clock_source (static, libsddc.c): computes both corrected
32-bit frequency words, for the ADC sampling frequency and the tuner
reference frequency, and writes them together in one SI5351A control
transfer. -/
def sddc_set_clock_source (oracle : Oracle) (s : SDDC)
    (adc_frequency tuner_frequency : ℚ) : Int × List HWAction :=
  usb_device_control oracle USBCmd.SI5351A
    [corrected_frequency_word s.freq_corr_ppm adc_frequency,
     corrected_frequency_word s.freq_corr_ppm tuner_frequency]

/-- The capability switch in sddc_open: model to
(has_clock_source, has_vhf_tuner, hf_attenuator_levels).  BBRF103 and
RX888 share the first case; HF103 the second; every other model takes
the default (false, false, 0). -/
def modelCapabilities : SDDCHWModel → Bool × Bool × ℕ
  | SDDCHWModel.hwBBRF103 => (true, true, 3)
  | SDDCHWModel.hwRX888 => (true, true, 3)
  | SDDCHWModel.hwHF103 => (false, false, 32)
  | SDDCHWModel.hwUnknown _ => (false, false, 0)

/-- sddc_open after a successful TESTFX3 probe returning the model byte
(already decoded to SDDCHWModel) and the two firmware bytes: builds the
initial device state.  DEFAULT_SAMPLE_RATE is 64e6, the default tuner
frequency 999e3, the default correction 0 ppm. -/
def sddc_open (model : SDDCHWModel) (fw_hi fw_lo : ℕ) : SDDC :=
  { status := SDDCStatus.ready
    model := model
    firmware := ((fw_hi % 256) * 2 ^ 8 + fw_lo % 256) % 2 ^ 16
    rf_mode := RFMode.hf
    hasStreaming := false
    has_clock_source := (modelCapabilities model).1
    has_vhf_tuner := (modelCapabilities model).2.1
    hf_attenuator_levels := (modelCapabilities model).2.2
    sample_rate := 64000000
    tuner_frequency := 999000
    freq_corr_ppm := 0 }

/-- sddc_set_rf_mode: HF always accepted; VHF only with a VHF tuner,
otherwise fails without mutating state. -/
def sddc_set_rf_mode (s : SDDC) (rf_mode : RFMode) : Int × SDDC :=
  match rf_mode with
  | RFMode.hf => (0, { s with rf_mode := RFMode.hf })
  | RFMode.vhf =>
      if !s.has_vhf_tuner then (-1, s)
      else (0, { s with rf_mode := RFMode.vhf })

/-- sddc_set_sample_rate: no checks yet, stores and returns 0. -/
def sddc_set_sample_rate (s : SDDC) (sample_rate : ℚ) : Int × SDDC :=
  (0, { s with sample_rate := sample_rate })

/-- sddc_set_async_params: creates the streaming engine exactly once; a
second call fails without side effects, and a failed open also fails. -/
def sddc_set_async_params (oracle : Oracle) (s : SDDC) : Int × SDDC :=
  if s.hasStreaming then (-1, s)
  else if oracle HWAction.streamingOpenAsync then
    (0, { s with hasStreaming := true })
  else (-1, s)

/-- sddc_set_hf_attenuation: dispatch on hf_attenuator_levels.
0 levels: success, no hardware effect.  3 levels: switch on the C int
cast of the requested value, writing the 2-bit select pattern under the
2-bit mask; unmatched values fail without writing.  32 levels: range
check on [0, 31], then one DAT31FX3 byte (31 - (int)attenuation) << 1;
out-of-range fails without writing.  Any other level count fails. -/
def sddc_set_hf_attenuation (oracle : Oracle) (s : SDDC) (attenuation : ℚ) :
    Int × List HWAction :=
  if s.hf_attenuator_levels = 0 then (0, [])
  else if s.hf_attenuator_levels = 3 then
    if ratTrunc attenuation = 0 then
      usb_device_gpio_set oracle GPIO_ATT_SEL1 (GPIO_ATT_SEL0 ||| GPIO_ATT_SEL1)
    else if ratTrunc attenuation = 10 then
      usb_device_gpio_set oracle (GPIO_ATT_SEL0 ||| GPIO_ATT_SEL1)
        (GPIO_ATT_SEL0 ||| GPIO_ATT_SEL1)
    else if ratTrunc attenuation = 20 then
      usb_device_gpio_set oracle GPIO_ATT_SEL0 (GPIO_ATT_SEL0 ||| GPIO_ATT_SEL1)
    else (-1, [])
  else if s.hf_attenuator_levels = 32 then
    if attenuation < 0 ∨ attenuation > 31 then (-1, [])
    else
      usb_device_control oracle USBCmd.DAT31FX3
        [(31 - ratTrunc attenuation).toNat * 2 % 2 ^ 8]
  else (-1, [])

/-- The 29-entry calibrated tuner attenuation table of libsddc.c. -/
def tuner_attenuations_table : List ℚ :=
  [0, 9/10, 14/10, 27/10, 37/10, 77/10, 87/10, 125/10, 144/10, 157/10,
   166/10, 197/10, 207/10, 229/10, 254/10, 280/10, 297/10, 328/10, 338/10,
   364/10, 372/10, 386/10, 402/10, 421/10, 434/10, 439/10, 445/10, 480/10,
   496/10]

/-- sizeof-derived table size used by libsddc.c. -/
def attenuation_table_size : ℕ := tuner_attenuations_table.length

/-- Table entry at an index (total function used by the embedding; all
indices the algorithms produce are in bounds). -/
def tunerAtt (i : ℕ) : ℚ := tuner_attenuations_table.getD i 0

/-- Distance of a requested attenuation from a table entry, the fabs of
the C loop. -/
def attDist (a : ℚ) (i : ℕ) : ℚ := |a - tunerAtt i|

/-- The for loop of sddc_set_tuner_attenuation: fuel counts the
remaining iterations, i is the loop counter, (idx, idx_att) the best
index and its distance so far.  The caller supplies fuel so that the
loop runs for i = 1 .. attenuation_table_size - 1. -/
def sddc_nearest_aux (a : ℚ) : ℕ → ℕ → ℕ → ℚ → ℕ
  | 0, _, idx, _ => idx
  | fuel + 1, i, idx, idx_att =>
      let att := |a - tunerAtt i|
      if att < idx_att then sddc_nearest_aux a fuel (i + 1) i att
      else sddc_nearest_aux a fuel (i + 1) idx idx_att

/-- The index selected by sddc_set_tuner_attenuation: start from index 0
as initial best, scan indices 1 .. 28, replace on strictly smaller
distance. -/
def sddc_nearest_attenuation_index (a : ℚ) : ℕ :=
  sddc_nearest_aux a (attenuation_table_size - 1) 1 0 (|a - tunerAtt 0|)

/-- sddc_set_tuner_attenuation: computes the nearest table index, writes
that one-byte index with R820T2SETATT, and on success reports the
calibrated value at the selected index (the INFO line of libsddc.c),
modelled as the third component. -/
def sddc_set_tuner_attenuation (oracle : Oracle) (s : SDDC)
    (attenuation : ℚ) : Int × List HWAction × Option ℚ :=
  let idx := sddc_nearest_attenuation_index attenuation
  let r := usb_device_control oracle USBCmd.R820T2SETATT [idx]
  if r.1 < 0 then (-1, r.2, none)
  else (0, r.2, some (tuner_attenuations_table.getD idx 0))

/-- The table read performed by sddc_get_tuner_attenuation after the
R820T2GETATT control transfer returns the one-byte index data: the C
code evaluates tuner_attenuations_table[(int) data] unchecked; an
out-of-bounds access is modelled as none. -/
def sddc_get_tuner_attenuation_read (data : ℕ) : Option ℚ :=
  tuner_attenuations_table[data]?

/-- sddc_set_tuner_frequency: writes the 32-bit truncated frequency with
R820T2TUNE; on success stores the requested frequency. -/
def sddc_set_tuner_frequency (oracle : Oracle) (s : SDDC) (frequency : ℚ) :
    Int × SDDC × List HWAction :=
  let data : ℕ := (ratTrunc frequency).toNat % 2 ^ 32
  let r := usb_device_control oracle USBCmd.R820T2TUNE [data]
  if r.1 < 0 then (-1, s, r.2)
  else (0, { s with tuner_frequency := frequency }, r.2)

/-- sddc_set_frequency_correction: if currently streaming, first calls
sddc_set_clock_source on the stored (sample_rate, tuner_frequency) pair
(note: with the still-stored old freq_corr_ppm), failing the call on
failure; only then stores the new correction. -/
def sddc_set_frequency_correction (oracle : Oracle) (s : SDDC)
    (correction : ℚ) : Int × SDDC × List HWAction :=
  if s.status = SDDCStatus.streaming then
    let r := sddc_set_clock_source oracle s s.sample_rate s.tuner_frequency
    if r.1 < 0 then (-1, s, r.2)
    else (0, { s with freq_corr_ppm := correction }, r.2)
  else (0, { s with freq_corr_ppm := correction }, [])

/-- Step 1 of sddc_start_streaming: program the clock generator for the
stored (sample_rate, tuner_frequency) pair, only if has_clock_source. -/
def start_clock_step (oracle : Oracle) (s : SDDC) : Int × List HWAction :=
  if s.has_clock_source then
    sddc_set_clock_source oracle s s.sample_rate s.tuner_frequency
  else (0, [])

/-- Step 2 of sddc_start_streaming: command the tuner into standby, only
if has_vhf_tuner. -/
def start_standby_step (oracle : Oracle) (s : SDDC) : Int × List HWAction :=
  if s.has_vhf_tuner then usb_device_control oracle USBCmd.R820T2STDBY []
  else (0, [])

/-- Step 4 of sddc_start_streaming: set the tuner attenuation to 0, only
if has_vhf_tuner (the INFO report of the inner call is dropped). -/
def start_tuneratt_step (oracle : Oracle) (s : SDDC) : Int × List HWAction :=
  if s.has_vhf_tuner then
    ((sddc_set_tuner_attenuation oracle s 0).1,
     (sddc_set_tuner_attenuation oracle s 0).2.1)
  else (0, [])

/-- Step 5 of sddc_start_streaming: only if a streaming engine exists,
propagate the (uint32-cast) sample rate to it — a void call — and start
it. -/
def start_engine_step (oracle : Oracle) (s : SDDC) : Int × List HWAction :=
  if s.hasStreaming then
    ((streaming_start oracle).1,
     streaming_set_sample_rate ((ratTrunc s.sample_rate).toNat % 2 ^ 32) ++
       (streaming_start oracle).2)
  else (0, [])

/-- sddc_start_streaming: fails unless Ready; then, in order: clock
program if has_clock_source, tuner standby if has_vhf_tuner, HF
attenuation to 0, tuner attenuation to 0 if has_vhf_tuner, sample-rate
propagation and engine start if a streaming engine exists, and the
STARTFX3 start-producer command; each step's failure (checked as ret
less than 0, the C convention) aborts the remainder with the state
unchanged, and only full success sets Streaming. -/
def sddc_start_streaming (oracle : Oracle) (s : SDDC) :
    Int × SDDC × List HWAction :=
  if s.status ≠ SDDCStatus.ready then (-1, s, [])
  else if (start_clock_step oracle s).1 < 0 then
    (-1, s, (start_clock_step oracle s).2)
  else if (start_standby_step oracle s).1 < 0 then
    (-1, s, (start_clock_step oracle s).2 ++ (start_standby_step oracle s).2)
  else if (sddc_set_hf_attenuation oracle s 0).1 < 0 then
    (-1, s, (start_clock_step oracle s).2 ++ (start_standby_step oracle s).2 ++
      (sddc_set_hf_attenuation oracle s 0).2)
  else if (start_tuneratt_step oracle s).1 < 0 then
    (-1, s, (start_clock_step oracle s).2 ++ (start_standby_step oracle s).2 ++
      (sddc_set_hf_attenuation oracle s 0).2 ++ (start_tuneratt_step oracle s).2)
  else if (start_engine_step oracle s).1 < 0 then
    (-1, s, (start_clock_step oracle s).2 ++ (start_standby_step oracle s).2 ++
      (sddc_set_hf_attenuation oracle s 0).2 ++
      (start_tuneratt_step oracle s).2 ++ (start_engine_step oracle s).2)
  else if (usb_device_control oracle USBCmd.STARTFX3 []).1 < 0 then
    (-1, s, (start_clock_step oracle s).2 ++ (start_standby_step oracle s).2 ++
      (sddc_set_hf_attenuation oracle s 0).2 ++
      (start_tuneratt_step oracle s).2 ++ (start_engine_step oracle s).2 ++
      (usb_device_control oracle USBCmd.STARTFX3 []).2)
  else
    (0, { s with status := SDDCStatus.streaming },
     (start_clock_step oracle s).2 ++ (start_standby_step oracle s).2 ++
       (sddc_set_hf_attenuation oracle s 0).2 ++
       (start_tuneratt_step oracle s).2 ++ (start_engine_step oracle s).2 ++
       (usb_device_control oracle USBCmd.STARTFX3 []).2)

/-- Step 2 of sddc_stop_streaming: stop the streaming engine, only if
one exists. -/
def stop_engine_step (oracle : Oracle) (s : SDDC) : Int × List HWAction :=
  if s.hasStreaming then streaming_stop oracle else (0, [])

/-- sddc_stop_streaming: fails unless Streaming; then STOPFX3, engine
stop if a streaming engine exists, and unconditionally
sddc_set_clock_source(0, 0); any failure fails the call with the state
unchanged, full success returns the status to Ready. -/
def sddc_stop_streaming (oracle : Oracle) (s : SDDC) :
    Int × SDDC × List HWAction :=
  if s.status ≠ SDDCStatus.streaming then (-1, s, [])
  else if (usb_device_control oracle USBCmd.STOPFX3 []).1 < 0 then
    (-1, s, (usb_device_control oracle USBCmd.STOPFX3 []).2)
  else if (stop_engine_step oracle s).1 < 0 then
    (-1, s, (usb_device_control oracle USBCmd.STOPFX3 []).2 ++
      (stop_engine_step oracle s).2)
  else if (sddc_set_clock_source oracle s 0 0).1 < 0 then
    (-1, s, (usb_device_control oracle USBCmd.STOPFX3 []).2 ++
      (stop_engine_step oracle s).2 ++ (sddc_set_clock_source oracle s 0 0).2)
  else
    (0, { s with status := SDDCStatus.ready },
     (usb_device_control oracle USBCmd.STOPFX3 []).2 ++
       (stop_engine_step oracle s).2 ++ (sddc_set_clock_source oracle s 0 0).2)

/-! ### Specification-side definitions and shared concrete inputs -/

/-- Written from the words of the spec, for comparison with the code:
the raw frequency word as the spec states it, round to the nearest
integer of f * (1 + ppm * 1e-6), truncated to an unsigned 32-bit
word. -/
def spec_corrected_frequency_word (ppm f : ℚ) : ℕ :=
  (round (f * (1 + ppm / 1000000))).toNat % 2 ^ 32

/-- The full ordered list of hardware actions of a successful
sddc_start_streaming run: the six steps of the start sequence. -/
def startTrace (s : SDDC) : List HWAction :=
  (if s.has_clock_source then
    [HWAction.control USBCmd.SI5351A
      [corrected_frequency_word s.freq_corr_ppm s.sample_rate,
       corrected_frequency_word s.freq_corr_ppm s.tuner_frequency]]
   else [])
  ++ (if s.has_vhf_tuner then [HWAction.control USBCmd.R820T2STDBY []] else [])
  ++ (sddc_set_hf_attenuation (fun _ => true) s 0).2
  ++ (if s.has_vhf_tuner then
    [HWAction.control USBCmd.R820T2SETATT [sddc_nearest_attenuation_index 0]]
   else [])
  ++ (if s.hasStreaming then
    [HWAction.streamingSetSampleRate ((ratTrunc s.sample_rate).toNat % 2 ^ 32),
     HWAction.streamingStart]
   else [])
  ++ [HWAction.control USBCmd.STARTFX3 []]

/-- The full ordered list of hardware actions of a successful
sddc_stop_streaming run; note the final clock reprogram with frequency
arguments (0, 0) appears unconditionally, for every value of
has_clock_source. -/
def stopTrace (s : SDDC) : List HWAction :=
  [HWAction.control USBCmd.STOPFX3 []]
  ++ (if s.hasStreaming then [HWAction.streamingStop] else [])
  ++ [HWAction.control USBCmd.SI5351A
      [corrected_frequency_word s.freq_corr_ppm 0,
       corrected_frequency_word s.freq_corr_ppm 0]]

/-- The model and the capability fields of a device state, fixed at
open time (hf_attenuator_levels 0 is the style None, 3 is Coarse3, 32
is Fine32). -/
def capsOf (s : SDDC) : SDDCHWModel × Bool × Bool × ℕ :=
  (s.model, s.has_clock_source, s.has_vhf_tuner, s.hf_attenuator_levels)

/-- Oracle under which every hardware call succeeds. -/
def allOk : Oracle := fun _ => true

/-- Oracle under which every hardware call fails. -/
def allFail : Oracle := fun _ => false

/-- Concrete BBRF103-style state fresh from open (Coarse3 attenuator,
clock source and VHF tuner present). -/
def sampleBBRF103 : SDDC := sddc_open SDDCHWModel.hwBBRF103 1 2

/-- Concrete HF103-style state fresh from open (Fine32 attenuator). -/
def sampleHF103 : SDDC := sddc_open SDDCHWModel.hwHF103 1 2

/-- Concrete BBRF103-style state that is currently streaming, with the
default sample rate, tuner frequency and zero stored correction. -/
def sampleStreaming : SDDC :=
  { sampleBBRF103 with status := SDDCStatus.streaming }

/-! ### Helper lemmas for evaluating the C double-to-int cast -/

/-- On nonnegative values the C truncation toward zero is the floor. -/
lemma ratTrunc_of_nonneg (x : ℚ) (h : 0 ≤ x) : ratTrunc x = ⌊x⌋ := by
  simp [ratTrunc, h]

/-- The C truncation is the identity on integer values. -/
lemma ratTrunc_intCast (z : ℤ) : ratTrunc ((z : ℚ)) = z := by
  unfold ratTrunc
  split_ifs with h
  · exact Int.floor_intCast z
  · rw [← Int.cast_neg, Int.floor_intCast]
    exact neg_neg z

/-! ### Nearest-match selection (claim C2) -/

/-- Loop invariant of the for loop in sddc_set_tuner_attenuation: if
(idx, |a - table idx|) is the best pair among indices below i, with
strictly smaller distance than every index below idx, then the final
result of the remaining iterations is the overall argmin with the
lowest index winning ties. -/
lemma sddc_nearest_aux_spec (a : ℚ) :
    ∀ fuel i idx, i + fuel = attenuation_table_size → idx < i →
      idx < attenuation_table_size →
      (∀ j, j < i → |a - tunerAtt idx| ≤ |a - tunerAtt j|) →
      (∀ j, j < idx → |a - tunerAtt idx| < |a - tunerAtt j|) →
      sddc_nearest_aux a fuel i idx (|a - tunerAtt idx|) <
          attenuation_table_size ∧
        (∀ j, j < attenuation_table_size →
          |a - tunerAtt (sddc_nearest_aux a fuel i idx (|a - tunerAtt idx|))| ≤
            |a - tunerAtt j|) ∧
        (∀ j, j < sddc_nearest_aux a fuel i idx (|a - tunerAtt idx|) →
          |a - tunerAtt (sddc_nearest_aux a fuel i idx (|a - tunerAtt idx|))| <
            |a - tunerAtt j|) := by
  intro fuel
  induction fuel with
  | zero =>
      intro i idx hsum hlt hsz hmin htie
      refine ⟨hsz, ?_, htie⟩
      intro j hj
      exact hmin j (by omega)
  | succ n ih =>
      intro i idx hsum hlt hsz hmin htie
      by_cases hc : |a - tunerAtt i| < |a - tunerAtt idx|
      · have hstep : sddc_nearest_aux a (n + 1) i idx (|a - tunerAtt idx|) =
            sddc_nearest_aux a n (i + 1) i (|a - tunerAtt i|) := by
          simp [sddc_nearest_aux, hc]
        rw [hstep]
        refine ih (i + 1) i (by omega) (by omega) (by omega) ?_ ?_
        · intro j hj
          rcases Nat.lt_succ_iff_lt_or_eq.mp hj with hj' | hj'
          · exact le_of_lt (lt_of_lt_of_le hc (hmin j hj'))
          · subst hj'; exact le_refl _
        · intro j hj
          exact lt_of_lt_of_le hc (hmin j hj)
      · have hstep : sddc_nearest_aux a (n + 1) i idx (|a - tunerAtt idx|) =
            sddc_nearest_aux a n (i + 1) idx (|a - tunerAtt idx|) := by
          simp [sddc_nearest_aux, hc]
        rw [hstep]
        refine ih (i + 1) idx (by omega) (by omega) hsz ?_ htie
        intro j hj
        rcases Nat.lt_succ_iff_lt_or_eq.mp hj with hj' | hj'
        · exact hmin j hj'
        · subst hj'; exact not_lt.mp hc

/-- C2: for every requested VHF tuner attenuation a,
sddc_set_tuner_attenuation selects the index of the fixed 29-entry
calibrated table minimizing the distance to a, with the lowest index
winning among equal-distance candidates (every strictly lower index has
strictly larger distance); the winning index, not a, is the one-byte
payload written to hardware, and on success the effective attenuation
reported is the table entry at that index. -/
theorem sddc_set_tuner_attenuation_nearest (oracle : Oracle) (s : SDDC)
    (a : ℚ) :
    tuner_attenuations_table.length = 29 ∧
      sddc_nearest_attenuation_index a < 29 ∧
      (∀ j, j < 29 →
        |a - tunerAtt (sddc_nearest_attenuation_index a)| ≤ |a - tunerAtt j|) ∧
      (∀ j, j < sddc_nearest_attenuation_index a →
        |a - tunerAtt (sddc_nearest_attenuation_index a)| < |a - tunerAtt j|) ∧
      (sddc_set_tuner_attenuation oracle s a).2.1 =
        [HWAction.control USBCmd.R820T2SETATT [sddc_nearest_attenuation_index a]] ∧
      ((sddc_set_tuner_attenuation oracle s a).1 = 0 →
        (sddc_set_tuner_attenuation oracle s a).2.2 =
          some (tunerAtt (sddc_nearest_attenuation_index a))) := by
  have hsize : attenuation_table_size = 29 := rfl
  have hspec := sddc_nearest_aux_spec a (attenuation_table_size - 1) 1 0
    (by omega) (by omega) (by omega)
    (fun j hj => by interval_cases j; exact le_refl _)
    (fun j hj => by omega)
  have hidx : sddc_nearest_attenuation_index a =
      sddc_nearest_aux a (attenuation_table_size - 1) 1 0 (|a - tunerAtt 0|) := rfl
  refine ⟨rfl, ?_, ?_, ?_, ?_, ?_⟩
  · rw [hidx]; omega
  · intro j hj
    rw [hidx]
    exact hspec.2.1 j (by omega)
  · intro j hj
    rw [hidx] at hj ⊢
    exact hspec.2.2 j hj
  · cases h : oracle (HWAction.control USBCmd.R820T2SETATT
      [sddc_nearest_attenuation_index a]) <;>
      simp [sddc_set_tuner_attenuation, usb_device_control, h]
  · intro hret
    cases h : oracle (HWAction.control USBCmd.R820T2SETATT
        [sddc_nearest_attenuation_index a])
    · exfalso
      simp [sddc_set_tuner_attenuation, usb_device_control, h] at hret
    · simp [sddc_set_tuner_attenuation, usb_device_control, h, tunerAtt]

/-- Closed witness for C2, the scenario of the spec: requesting 5 dB is
applied at the selected index of the table and the reported effective
attenuation is the calibrated table entry at that index. -/
theorem sddc_set_tuner_attenuation_nearest_witness :
    (sddc_set_tuner_attenuation allOk sampleBBRF103 5).2.2 =
      some (tunerAtt (sddc_nearest_attenuation_index 5)) :=
  (sddc_set_tuner_attenuation_nearest allOk sampleBBRF103 5).2.2.2.2.2 (by rfl)

/-! ### Bounds of the get-attenuation table read (claim C10) -/

/-- C10 counterexample: the get-attenuation control transfer returns a
full byte, and already at byte value 29 (which is below 256) the table
read performed by sddc_get_tuner_attenuation is out of the bounds of the
29-entry table. -/
theorem sddc_get_tuner_attenuation_read_oob :
    29 < 256 ∧ sddc_get_tuner_attenuation_read 29 = none := by
  exact ⟨by omega, rfl⟩

/-- C10 amended: the table read performed by sddc_get_tuner_attenuation
at a returned byte stays within the bounds of the 29-entry table exactly
for byte values 0 through 28; every byte value from 29 through 255 reads
out of bounds. -/
theorem sddc_get_tuner_attenuation_read_in_bounds (data : ℕ) :
    (sddc_get_tuner_attenuation_read data).isSome ↔ data < 29 := by
  have hlen : tuner_attenuations_table.length = 29 := rfl
  unfold sddc_get_tuner_attenuation_read
  by_cases h : data < 29
  · rw [List.getElem?_eq_getElem (by omega)]
    simp [h]
  · rw [List.getElem?_eq_none (by omega)]
    simp [h]

/-! ### HF attenuation, Coarse3 style (claim C3) -/

/-- C3 counterexample: on a Coarse3 device (BBRF103-style,
hf_attenuator_levels = 3), requesting the non-integer value 10.5 dB does
not fail: the C int cast truncates it to 10, the 10 dB case is taken,
and the 2-bit select pattern is written to the GPIO register. -/
theorem sddc_set_hf_attenuation_coarse3_accepts_10_5 :
    sddc_set_hf_attenuation allOk sampleBBRF103 (21 / 2) =
      (0, [HWAction.gpioSet (GPIO_ATT_SEL0 ||| GPIO_ATT_SEL1)
        (GPIO_ATT_SEL0 ||| GPIO_ATT_SEL1)]) := by
  have h : ratTrunc (21 / 2 : ℚ) = 10 := by
    rw [ratTrunc_of_nonneg _ (by norm_num), Int.floor_eq_iff]
    norm_num
  simp [sddc_set_hf_attenuation, sampleBBRF103, sddc_open, modelCapabilities,
    h, usb_device_gpio_set, allOk]

/-- C3 amended: on a Coarse3 device, sddc_set_hf_attenuation accepts
exactly the requested values whose C int cast (truncation toward zero)
equals 0, 10 or 20 (so for example 10.5 is accepted and applied as
10 dB); each of the three classes maps to its fixed 2-bit select pattern
written under the 2-bit attenuator-select mask, and every other
requested value fails with no hardware write issued. -/
theorem sddc_set_hf_attenuation_coarse3 (oracle : Oracle) (s : SDDC)
    (a : ℚ) (h3 : s.hf_attenuator_levels = 3) :
    (ratTrunc a = 0 →
      sddc_set_hf_attenuation oracle s a =
        ((if oracle (HWAction.gpioSet GPIO_ATT_SEL1
            (GPIO_ATT_SEL0 ||| GPIO_ATT_SEL1)) then 0 else -1),
         [HWAction.gpioSet GPIO_ATT_SEL1 (GPIO_ATT_SEL0 ||| GPIO_ATT_SEL1)])) ∧
    (ratTrunc a = 10 →
      sddc_set_hf_attenuation oracle s a =
        ((if oracle (HWAction.gpioSet (GPIO_ATT_SEL0 ||| GPIO_ATT_SEL1)
            (GPIO_ATT_SEL0 ||| GPIO_ATT_SEL1)) then 0 else -1),
         [HWAction.gpioSet (GPIO_ATT_SEL0 ||| GPIO_ATT_SEL1)
            (GPIO_ATT_SEL0 ||| GPIO_ATT_SEL1)])) ∧
    (ratTrunc a = 20 →
      sddc_set_hf_attenuation oracle s a =
        ((if oracle (HWAction.gpioSet GPIO_ATT_SEL0
            (GPIO_ATT_SEL0 ||| GPIO_ATT_SEL1)) then 0 else -1),
         [HWAction.gpioSet GPIO_ATT_SEL0 (GPIO_ATT_SEL0 ||| GPIO_ATT_SEL1)])) ∧
    (ratTrunc a ≠ 0 → ratTrunc a ≠ 10 → ratTrunc a ≠ 20 →
      sddc_set_hf_attenuation oracle s a = (-1, [])) := by
  refine ⟨?_, ?_, ?_, ?_⟩ <;> intro h0 <;>
    simp_all [sddc_set_hf_attenuation, usb_device_gpio_set]

/-- Closed witness for the amended C3 at the exact value 20 on a
Coarse3 device: the 20 dB case writes pattern ATT_SEL0 under the 2-bit
mask, and 3.5 dB (truncating to 3) is rejected without a write. -/
theorem sddc_set_hf_attenuation_coarse3_witness :
    sddc_set_hf_attenuation allOk sampleBBRF103 20 =
        (0, [HWAction.gpioSet GPIO_ATT_SEL0 (GPIO_ATT_SEL0 ||| GPIO_ATT_SEL1)]) ∧
      sddc_set_hf_attenuation allOk sampleBBRF103 (7 / 2) = (-1, []) := by
  have h20 : ratTrunc (20 : ℚ) = 20 := by
    rw [show (20 : ℚ) = ((20 : ℤ) : ℚ) by norm_num, ratTrunc_intCast]
  have h35 : ratTrunc (7 / 2 : ℚ) = 3 := by
    rw [ratTrunc_of_nonneg _ (by norm_num), Int.floor_eq_iff]
    norm_num
  constructor
  · have h := (sddc_set_hf_attenuation_coarse3 allOk sampleBBRF103 20 rfl).2.2.1
      h20
    simpa [allOk] using h
  · exact (sddc_set_hf_attenuation_coarse3 allOk sampleBBRF103 (7 / 2)
      rfl).2.2.2 (by rw [h35]; decide) (by rw [h35]; decide) (by rw [h35]; decide)

/-! ### HF attenuation, Fine32 style (claim C4) -/

/-- C4: on a Fine32 device (hf_attenuator_levels = 32), every requested
value in the closed interval [0, 31] is accepted and exactly one
DAT31FX3 byte equal to (31 - floor(value)) * 2 is written; every value
outside [0, 31] fails with no hardware write issued. -/
theorem sddc_set_hf_attenuation_fine32 (oracle : Oracle) (s : SDDC)
    (a : ℚ) (h32 : s.hf_attenuator_levels = 32) :
    (0 ≤ a → a ≤ 31 →
      sddc_set_hf_attenuation oracle s a =
        ((if oracle (HWAction.control USBCmd.DAT31FX3 [(31 - ⌊a⌋).toNat * 2])
            then 0 else -1),
         [HWAction.control USBCmd.DAT31FX3 [(31 - ⌊a⌋).toNat * 2]])) ∧
    (a < 0 ∨ 31 < a → sddc_set_hf_attenuation oracle s a = (-1, [])) := by
  constructor
  · intro h0 h31
    have hfl0 : (0 : ℤ) ≤ ⌊a⌋ := Int.le_floor.mpr (by exact_mod_cast h0)
    have hfl31 : ⌊a⌋ ≤ 31 := by
      have h1 : (⌊a⌋ : ℚ) ≤ a := Int.floor_le a
      exact_mod_cast h1.trans h31
    have htr : ratTrunc a = ⌊a⌋ := ratTrunc_of_nonneg a h0
    have hbyte : (31 - ratTrunc a).toNat * 2 % 2 ^ 8 = (31 - ⌊a⌋).toNat * 2 := by
      rw [htr]
      exact Nat.mod_eq_of_lt (by omega)
    have hnr : ¬(a < 0 ∨ a > 31) := by
      push_neg
      exact ⟨h0, h31⟩
    unfold sddc_set_hf_attenuation
    rw [if_neg (by omega : ¬s.hf_attenuator_levels = 0),
      if_neg (by omega : ¬s.hf_attenuator_levels = 3),
      if_pos h32, if_neg hnr]
    simp only [usb_device_control, hbyte]
  · intro hout
    have hr : a < 0 ∨ a > 31 := hout
    simp [sddc_set_hf_attenuation, h32, hr]

/-- Closed witness for C4, the scenario of the spec: 15.0 dB on a Fine32
device writes the single byte (31 - 15) * 2 = 32, and the out-of-range
request 32 dB fails with no write. -/
theorem sddc_set_hf_attenuation_fine32_witness :
    sddc_set_hf_attenuation allOk sampleHF103 15 =
        (0, [HWAction.control USBCmd.DAT31FX3 [32]]) ∧
      sddc_set_hf_attenuation allOk sampleHF103 32 = (-1, []) := by
  constructor
  · have h := (sddc_set_hf_attenuation_fine32 allOk sampleHF103 15 rfl).1
      (by norm_num) (by norm_num)
    have hfl : ⌊(15 : ℚ)⌋ = 15 := by norm_num
    rw [hfl] at h
    have h15 : ((31 : ℤ) - 15).toNat * 2 = 32 := by decide
    rw [h15] at h
    simpa [allOk] using h
  · exact (sddc_set_hf_attenuation_fine32 allOk sampleHF103 32 rfl).2
      (Or.inr (by norm_num))

/-! ### Clock words and frequency correction arithmetic (claim C5) -/

/-- C5 counterexample: at ppm = 0 and target frequency f = 64000000.7 Hz
the clock generator word computed by the code is 64000000 (the C cast
truncates), while the claim's round-to-nearest formula gives
64000001. -/
theorem corrected_frequency_word_not_rounded :
    corrected_frequency_word 0 (640000007 / 10) = 64000000 ∧
      spec_corrected_frequency_word 0 (640000007 / 10) = 64000001 := by
  constructor
  · have harg : (640000007 / 10 + 1 / 1000000 * 0 * (640000007 / 10) : ℚ) =
        640000007 / 10 := by ring
    have h : ratTrunc (640000007 / 10 : ℚ) = 64000000 := by
      rw [ratTrunc_of_nonneg _ (by norm_num), Int.floor_eq_iff]
      norm_num
    show (ratTrunc (640000007 / 10 + 1 / 1000000 * 0 * (640000007 / 10) :
      ℚ)).toNat % 2 ^ 32 = 64000000
    rw [harg, h]
    decide
  · have harg : ((640000007 / 10 : ℚ) * (1 + 0 / 1000000)) = 640000007 / 10 := by
      ring
    have h : round ((640000007 / 10 : ℚ)) = 64000001 := by
      rw [round_eq, Int.floor_eq_iff]
      norm_num
    show (round ((640000007 / 10 : ℚ) * (1 + 0 / 1000000))).toNat % 2 ^ 32 =
      64000001
    rw [harg, h]
    decide

/-- C5 amended: for every target frequency and correction, the raw word
programmed by sddc_set_clock_source is f * (1 + ppm * 1e-6) truncated
toward zero (the C uint32 cast), not rounded to nearest, reduced to 32
bits; the same formula is applied to the ADC frequency and to the tuner
reference frequency, both words travel in the single SI5351A control
transfer, and with ppm = 0 the correction term vanishes. -/
theorem sddc_set_clock_source_words (oracle : Oracle) (s : SDDC)
    (adc_frequency tuner_frequency f : ℚ) :
    (sddc_set_clock_source oracle s adc_frequency tuner_frequency).2 =
        [HWAction.control USBCmd.SI5351A
          [corrected_frequency_word s.freq_corr_ppm adc_frequency,
           corrected_frequency_word s.freq_corr_ppm tuner_frequency]] ∧
      corrected_frequency_word s.freq_corr_ppm f =
        (ratTrunc (f * (1 + s.freq_corr_ppm / 1000000))).toNat % 2 ^ 32 ∧
      corrected_frequency_word 0 f = (ratTrunc f).toNat % 2 ^ 32 := by
  refine ⟨rfl, ?_, ?_⟩
  · have harg : (f + 1 / 1000000 * s.freq_corr_ppm * f : ℚ) =
        f * (1 + s.freq_corr_ppm / 1000000) := by ring
    show (ratTrunc (f + 1 / 1000000 * s.freq_corr_ppm * f)).toNat % 2 ^ 32 = _
    rw [harg]
  · have harg : (f + 1 / 1000000 * 0 * f : ℚ) = f := by ring
    show (ratTrunc (f + 1 / 1000000 * 0 * f)).toNat % 2 ^ 32 = _
    rw [harg]

/-- Closed witness for the amended C5: with 100 ppm correction a 64 MHz
ADC frequency programs the word 64006400, and 0 ppm is the identity on
the default 64 MHz. -/
theorem sddc_set_clock_source_words_witness :
    corrected_frequency_word 100 64000000 = 64006400 ∧
      corrected_frequency_word 0 64000000 = 64000000 := by
  have h := (sddc_set_clock_source_words allOk sampleBBRF103 0 0
    64000000).2.2
  constructor
  · show (ratTrunc ((64000000 : ℚ) + 1 / 1000000 * 100 * 64000000)).toNat %
      2 ^ 32 = 64006400
    rw [show ((64000000 : ℚ) + 1 / 1000000 * 100 * 64000000) =
      ((64006400 : ℤ) : ℚ) by norm_num, ratTrunc_intCast]
    decide
  · rw [h, show ((64000000 : ℚ)) = ((64000000 : ℤ) : ℚ) by norm_num,
      ratTrunc_intCast]
    decide

/-! ### Start / stop sequencing (claims C6 and C7) -/

/-- The list of hardware actions issued by sddc_set_hf_attenuation does
not depend on the oracle (only the reported return value does). -/
lemma sddc_set_hf_attenuation_trace (o o' : Oracle) (s : SDDC) (a : ℚ) :
    (sddc_set_hf_attenuation o s a).2 = (sddc_set_hf_attenuation o' s a).2 := by
  unfold sddc_set_hf_attenuation usb_device_gpio_set usb_device_control
  split_ifs <;> rfl

/-- A control transfer returns a nonnegative value exactly when the
oracle grants it. -/
lemma usb_device_control_ret (o : Oracle) (cmd : USBCmd) (p : List ℕ) :
    ¬(usb_device_control o cmd p).1 < 0 ↔ o (HWAction.control cmd p) = true := by
  unfold usb_device_control
  cases h : o (HWAction.control cmd p) <;> simp [h]

/-- The one-byte nearest-index write is the whole hardware trace of
sddc_set_tuner_attenuation, for every oracle. -/
lemma sddc_set_tuner_attenuation_trace_eq (o : Oracle) (s : SDDC) (a : ℚ) :
    (sddc_set_tuner_attenuation o s a).2.1 =
      [HWAction.control USBCmd.R820T2SETATT
        [sddc_nearest_attenuation_index a]] := by
  simp only [sddc_set_tuner_attenuation, usb_device_control]
  split_ifs <;> rfl

/-- The concatenated traces of the six start steps form exactly the
start trace. -/
lemma start_steps_trace (oracle : Oracle) (s : SDDC) :
    (start_clock_step oracle s).2 ++ (start_standby_step oracle s).2 ++
        (sddc_set_hf_attenuation oracle s 0).2 ++
        (start_tuneratt_step oracle s).2 ++ (start_engine_step oracle s).2 ++
        (usb_device_control oracle USBCmd.STARTFX3 []).2 = startTrace s := by
  have hhf : (sddc_set_hf_attenuation oracle s 0).2 =
      (sddc_set_hf_attenuation (fun _ => true) s 0).2 :=
    sddc_set_hf_attenuation_trace _ _ _ _
  have hta := sddc_set_tuner_attenuation_trace_eq oracle s 0
  unfold startTrace start_clock_step start_standby_step start_tuneratt_step
    start_engine_step sddc_set_clock_source streaming_start
    streaming_set_sample_rate usb_device_control
  rw [hhf]
  split_ifs <;> simp [hta]

/-- The concatenated traces of the three stop steps form exactly the
stop trace. -/
lemma stop_steps_trace (oracle : Oracle) (s : SDDC) :
    (usb_device_control oracle USBCmd.STOPFX3 []).2 ++
        (stop_engine_step oracle s).2 ++
        (sddc_set_clock_source oracle s 0 0).2 = stopTrace s := by
  unfold stopTrace stop_engine_step sddc_set_clock_source streaming_stop
    usb_device_control
  split_ifs <;> simp

/-- C6: sddc_start_streaming fails with the state unchanged and no
hardware action whenever the status is not Ready; from Ready the actions
issued are always a prefix of the six-step start trace (so a failing
step aborts every remaining step); return 0 means the full six-step
trace ran, the start-producer command succeeded and the status became
Streaming; any failure returns with the state (hence status Ready)
unchanged. -/
theorem sddc_start_streaming_correct (oracle : Oracle) (s : SDDC) :
    (s.status ≠ SDDCStatus.ready →
      sddc_start_streaming oracle s = (-1, s, [])) ∧
    (s.status = SDDCStatus.ready →
      ((sddc_start_streaming oracle s).2.2 <+: startTrace s) ∧
      ((sddc_start_streaming oracle s).1 = 0 →
        (sddc_start_streaming oracle s).2.1 =
          { s with status := SDDCStatus.streaming } ∧
        (sddc_start_streaming oracle s).2.2 = startTrace s ∧
        oracle (HWAction.control USBCmd.STARTFX3 []) = true) ∧
      ((sddc_start_streaming oracle s).1 ≠ 0 →
        (sddc_start_streaming oracle s).2.1 = s)) := by
  constructor
  · intro h
    simp only [sddc_start_streaming, if_pos h]
  · intro h
    have hne : ¬s.status ≠ SDDCStatus.ready := by simp [h]
    have htr := start_steps_trace oracle s
    unfold sddc_start_streaming
    rw [if_neg hne]
    split_ifs with h1 h2 h3 h4 h5 h6
    · refine ⟨?_, fun hc => absurd hc (by norm_num), fun _ => rfl⟩
      show (start_clock_step oracle s).2 <+: startTrace s
      rw [← htr]
      simp [List.append_assoc, List.prefix_append_right_inj,
        List.prefix_append]
    · refine ⟨?_, fun hc => absurd hc (by norm_num), fun _ => rfl⟩
      show (start_clock_step oracle s).2 ++ (start_standby_step oracle s).2 <+:
        startTrace s
      rw [← htr]
      simp [List.append_assoc, List.prefix_append_right_inj,
        List.prefix_append]
    · refine ⟨?_, fun hc => absurd hc (by norm_num), fun _ => rfl⟩
      show (start_clock_step oracle s).2 ++ (start_standby_step oracle s).2 ++
        (sddc_set_hf_attenuation oracle s 0).2 <+: startTrace s
      rw [← htr]
      simp [List.append_assoc, List.prefix_append_right_inj,
        List.prefix_append]
    · refine ⟨?_, fun hc => absurd hc (by norm_num), fun _ => rfl⟩
      show (start_clock_step oracle s).2 ++ (start_standby_step oracle s).2 ++
        (sddc_set_hf_attenuation oracle s 0).2 ++
        (start_tuneratt_step oracle s).2 <+: startTrace s
      rw [← htr]
      simp [List.append_assoc, List.prefix_append_right_inj,
        List.prefix_append]
    · refine ⟨?_, fun hc => absurd hc (by norm_num), fun _ => rfl⟩
      show (start_clock_step oracle s).2 ++ (start_standby_step oracle s).2 ++
        (sddc_set_hf_attenuation oracle s 0).2 ++
        (start_tuneratt_step oracle s).2 ++ (start_engine_step oracle s).2 <+:
        startTrace s
      rw [← htr]
      simp [List.append_assoc, List.prefix_append_right_inj,
        List.prefix_append]
    · refine ⟨?_, fun hc => absurd hc (by norm_num), fun _ => rfl⟩
      show (start_clock_step oracle s).2 ++ (start_standby_step oracle s).2 ++
        (sddc_set_hf_attenuation oracle s 0).2 ++
        (start_tuneratt_step oracle s).2 ++ (start_engine_step oracle s).2 ++
        (usb_device_control oracle USBCmd.STARTFX3 []).2 <+: startTrace s
      rw [htr]
    · refine ⟨?_, fun _ => ⟨rfl, ?_, ?_⟩, fun hc => absurd rfl hc⟩
      · show (start_clock_step oracle s).2 ++ (start_standby_step oracle s).2 ++
          (sddc_set_hf_attenuation oracle s 0).2 ++
          (start_tuneratt_step oracle s).2 ++ (start_engine_step oracle s).2 ++
          (usb_device_control oracle USBCmd.STARTFX3 []).2 <+: startTrace s
        rw [htr]
      · exact htr
      · exact (usb_device_control_ret oracle USBCmd.STARTFX3 []).mp h6

/-- Closed witness for C6: from the concrete Ready BBRF103 state with
every hardware call succeeding, the issued actions are a prefix of the
six-step start trace. -/
theorem sddc_start_streaming_correct_witness :
    (sddc_start_streaming allOk sampleBBRF103).2.2 <+:
      startTrace sampleBBRF103 :=
  ((sddc_start_streaming_correct allOk sampleBBRF103).2 rfl).1

/-- C7: sddc_stop_streaming fails with the state unchanged and no
hardware action whenever the status is not Streaming; from Streaming the
actions issued are always a prefix of the stop trace, whose final
element is the clock reprogram with frequency arguments (0, 0) issued
unconditionally (stopTrace contains it for every value of
has_clock_source, and the programmed words are 0); return 0 means the
full trace ran, the clock reprogram succeeded and the status returned to
Ready; any failure (the clock step included) returns with the state
unchanged. -/
theorem sddc_stop_streaming_correct (oracle : Oracle) (s : SDDC) :
    (s.status ≠ SDDCStatus.streaming →
      sddc_stop_streaming oracle s = (-1, s, [])) ∧
    (s.status = SDDCStatus.streaming →
      ((sddc_stop_streaming oracle s).2.2 <+: stopTrace s) ∧
      ((sddc_stop_streaming oracle s).1 = 0 →
        (sddc_stop_streaming oracle s).2.1 =
          { s with status := SDDCStatus.ready } ∧
        (sddc_stop_streaming oracle s).2.2 = stopTrace s ∧
        oracle (HWAction.control USBCmd.SI5351A
          [corrected_frequency_word s.freq_corr_ppm 0,
           corrected_frequency_word s.freq_corr_ppm 0]) = true) ∧
      ((sddc_stop_streaming oracle s).1 ≠ 0 →
        (sddc_stop_streaming oracle s).2.1 = s)) ∧
    (∀ ppm : ℚ, corrected_frequency_word ppm 0 = 0) := by
  refine ⟨?_, ?_, ?_⟩
  · intro h
    simp only [sddc_stop_streaming, if_pos h]
  · intro h
    have hne : ¬s.status ≠ SDDCStatus.streaming := by simp [h]
    have htr := stop_steps_trace oracle s
    unfold sddc_stop_streaming
    rw [if_neg hne]
    split_ifs with h1 h2 h3
    · refine ⟨?_, fun hc => absurd hc (by norm_num), fun _ => rfl⟩
      show (usb_device_control oracle USBCmd.STOPFX3 []).2 <+: stopTrace s
      rw [← htr]
      simp [List.append_assoc, List.prefix_append_right_inj,
        List.prefix_append]
    · refine ⟨?_, fun hc => absurd hc (by norm_num), fun _ => rfl⟩
      show (usb_device_control oracle USBCmd.STOPFX3 []).2 ++
        (stop_engine_step oracle s).2 <+: stopTrace s
      rw [← htr]
      simp [List.append_assoc, List.prefix_append_right_inj,
        List.prefix_append]
    · refine ⟨?_, fun hc => absurd hc (by norm_num), fun _ => rfl⟩
      show (usb_device_control oracle USBCmd.STOPFX3 []).2 ++
        (stop_engine_step oracle s).2 ++
        (sddc_set_clock_source oracle s 0 0).2 <+: stopTrace s
      rw [htr]
    · refine ⟨?_, fun _ => ⟨rfl, ?_, ?_⟩, fun hc => absurd rfl hc⟩
      · show (usb_device_control oracle USBCmd.STOPFX3 []).2 ++
          (stop_engine_step oracle s).2 ++
          (sddc_set_clock_source oracle s 0 0).2 <+: stopTrace s
        rw [htr]
      · exact htr
      · exact (usb_device_control_ret oracle USBCmd.SI5351A
          [corrected_frequency_word s.freq_corr_ppm 0,
           corrected_frequency_word s.freq_corr_ppm 0]).mp h3
  · intro ppm
    have harg : ((0 : ℚ) + 1 / 1000000 * ppm * 0) = ((0 : ℤ) : ℚ) := by
      norm_num
    show (ratTrunc ((0 : ℚ) + 1 / 1000000 * ppm * 0)).toNat % 2 ^ 32 = 0
    rw [harg, ratTrunc_intCast]
    rfl

/-- Closed witness for C7: stopping the concrete streaming BBRF103 state
with every hardware call succeeding returns the status to Ready with the
full stop trace issued. -/
theorem sddc_stop_streaming_correct_witness :
    (sddc_stop_streaming allOk sampleStreaming).2.1 =
      { sampleStreaming with status := SDDCStatus.ready } :=
  (((sddc_stop_streaming_correct allOk sampleStreaming).2.1 rfl).2.1
    (by rfl)).1

/-! ### RF mode selection (claim C8) -/

/-- C8: sddc_set_rf_mode with HF always succeeds and stores HF; with VHF
it succeeds and stores VHF exactly when the device has a VHF tuner, and
fails leaving the state (hence rf_mode) unchanged when it does not. -/
theorem sddc_set_rf_mode_correct (s : SDDC) :
    sddc_set_rf_mode s RFMode.hf = (0, { s with rf_mode := RFMode.hf }) ∧
      (s.has_vhf_tuner = true →
        sddc_set_rf_mode s RFMode.vhf = (0, { s with rf_mode := RFMode.vhf })) ∧
      (s.has_vhf_tuner = false → sddc_set_rf_mode s RFMode.vhf = (-1, s)) := by
  refine ⟨rfl, ?_, ?_⟩ <;> intro h <;> simp [sddc_set_rf_mode, h]

/-- Closed witness for C8: the HF103-style device has no VHF tuner, so
selecting VHF fails there with the state unchanged, while HF succeeds. -/
theorem sddc_set_rf_mode_correct_witness :
    sddc_set_rf_mode sampleHF103 RFMode.vhf = (-1, sampleHF103) :=
  (sddc_set_rf_mode_correct sampleHF103).2.2 rfl

/-! ### Capability flags fixed at open time (claim C9) -/

/-- sddc_start_streaming never changes the model or capability fields. -/
lemma capsOf_start (oracle : Oracle) (s : SDDC) :
    capsOf (sddc_start_streaming oracle s).2.1 = capsOf s := by
  unfold sddc_start_streaming
  split_ifs <;> rfl

/-- sddc_stop_streaming never changes the model or capability fields. -/
lemma capsOf_stop (oracle : Oracle) (s : SDDC) :
    capsOf (sddc_stop_streaming oracle s).2.1 = capsOf s := by
  unfold sddc_stop_streaming
  split_ifs <;> rfl

/-- C9: the capability fields (has_clock_source, has_vhf_tuner and the
attenuator level count standing for the attenuator style, with 0 the
style None) together with the model are resolved once by sddc_open from
the probed model, with every unrecognized model resolving to
(false, false, 0); and no subsequent operation of the embedding — RF
mode, sample rate, tuner frequency, frequency correction, streaming
configuration, start, stop, or start immediately followed by stop —
ever changes them. -/
theorem capability_flags_fixed (c : ℕ) :
    modelCapabilities (SDDCHWModel.hwUnknown c) = (false, false, 0) ∧
      (∀ model fw_hi fw_lo,
        capsOf (sddc_open model fw_hi fw_lo) = (model, modelCapabilities model)) ∧
      (∀ s m, capsOf (sddc_set_rf_mode s m).2 = capsOf s) ∧
      (∀ s r, capsOf (sddc_set_sample_rate s r).2 = capsOf s) ∧
      (∀ o s f, capsOf (sddc_set_tuner_frequency o s f).2.1 = capsOf s) ∧
      (∀ o s x, capsOf (sddc_set_frequency_correction o s x).2.1 = capsOf s) ∧
      (∀ o s, capsOf (sddc_set_async_params o s).2 = capsOf s) ∧
      (∀ o s, capsOf (sddc_start_streaming o s).2.1 = capsOf s) ∧
      (∀ o s, capsOf (sddc_stop_streaming o s).2.1 = capsOf s) ∧
      (∀ o o' s,
        capsOf (sddc_stop_streaming o' (sddc_start_streaming o s).2.1).2.1 =
          capsOf s) := by
  refine ⟨rfl, fun model fw_hi fw_lo => rfl, ?_, fun s r => rfl, ?_, ?_, ?_,
    capsOf_start, capsOf_stop, ?_⟩
  · intro s m
    cases m
    · rfl
    · unfold sddc_set_rf_mode
      split_ifs <;> rfl
  · intro o s f
    simp only [sddc_set_tuner_frequency]
    split_ifs <;> rfl
  · intro o s x
    simp only [sddc_set_frequency_correction]
    split_ifs <;> rfl
  · intro o s
    simp only [sddc_set_async_params]
    split_ifs <;> rfl
  · intro o o' s
    rw [capsOf_stop, capsOf_start]

/-! ### Frequency correction while streaming (claim C1) -/

/-- C1, evidence of the divergence between code and claim: on the
concrete streaming state with stored correction 0 ppm, sample rate
64 MHz and tuner frequency 999 kHz, calling
sddc_set_frequency_correction with the new correction 100 ppm
reprograms the clock generator with the OLD correction 0 (raw words
64000000 and 999000, because sddc_set_clock_source reads freq_corr_ppm
before it is updated), not with the new correction (whose words would
be 64006400 and 999099); on success the stored correction becomes 100,
and when the reprogram transfer fails the call fails with the state,
hence the stored correction, unchanged. -/
theorem sddc_set_frequency_correction_uses_stale_ppm :
    sddc_set_frequency_correction allOk sampleStreaming 100 =
        (0, { sampleStreaming with freq_corr_ppm := 100 },
         [HWAction.control USBCmd.SI5351A [64000000, 999000]]) ∧
      corrected_frequency_word 100 64000000 = 64006400 ∧
      corrected_frequency_word 100 999000 = 999099 ∧
      sddc_set_frequency_correction allFail sampleStreaming 100 =
        (-1, sampleStreaming,
         [HWAction.control USBCmd.SI5351A [64000000, 999000]]) := by
  have w1 : corrected_frequency_word 0 64000000 = 64000000 := by
    show (ratTrunc ((64000000 : ℚ) + 1 / 1000000 * 0 * 64000000)).toNat %
      2 ^ 32 = 64000000
    rw [show ((64000000 : ℚ) + 1 / 1000000 * 0 * 64000000) =
      ((64000000 : ℤ) : ℚ) by norm_num, ratTrunc_intCast]
    decide
  have w2 : corrected_frequency_word 0 999000 = 999000 := by
    show (ratTrunc ((999000 : ℚ) + 1 / 1000000 * 0 * 999000)).toNat %
      2 ^ 32 = 999000
    rw [show ((999000 : ℚ) + 1 / 1000000 * 0 * 999000) =
      ((999000 : ℤ) : ℚ) by norm_num, ratTrunc_intCast]
    decide
  have w3 : corrected_frequency_word 100 64000000 = 64006400 := by
    show (ratTrunc ((64000000 : ℚ) + 1 / 1000000 * 100 * 64000000)).toNat %
      2 ^ 32 = 64006400
    rw [show ((64000000 : ℚ) + 1 / 1000000 * 100 * 64000000) =
      ((64006400 : ℤ) : ℚ) by norm_num, ratTrunc_intCast]
    decide
  have w4 : corrected_frequency_word 100 999000 = 999099 := by
    show (ratTrunc ((999000 : ℚ) + 1 / 1000000 * 100 * 999000)).toNat %
      2 ^ 32 = 999099
    rw [show ((999000 : ℚ) + 1 / 1000000 * 100 * 999000) =
      (9990999 / 10 : ℚ) by norm_num, ratTrunc_of_nonneg _ (by norm_num),
      show ⌊(9990999 / 10 : ℚ)⌋ = 999099 by rw [Int.floor_eq_iff]; norm_num]
    decide
  refine ⟨?_, w3, w4, ?_⟩ <;>
    simp [sddc_set_frequency_correction, sddc_set_clock_source,
      usb_device_control, allOk, allFail, sampleStreaming, sampleBBRF103,
      sddc_open, modelCapabilities, w1, w2]

end Libsddc
